import Mathlib

/-!
Verification development for the CaptchaRecognizer training orchestration and
checkpoint-persistence engine.  Python source functions from
`src/model/char/...` are shallowly embedded as executable Lean definitions
(floats whose exact values matter are modelled as rationals, `float('inf')`
as `Option ℚ` with `none` standing for plus infinity, file-system directories
as lists of file names, and the background save worker as an explicit
interleaving transition system); theorems then settle the specified
properties against these embeddings.
-/

/- ===================================================================
   Early-stop state machine
   (src/model/char/define/resnet.py `_check_early_stop`, lines 358-367,
    and the inline copy in src/model/char/model/resnet18.py lines 175-186)
   =================================================================== -/

/-- Mutable early-stop tracking fields of the model object:
`self.best_val_loss` (initially `float('inf')`, modelled as `none`),
`self.no_improve_counter`, `self.is_early_stop`. -/
structure EarlyStopState where
  best_val_loss : Option ℚ
  no_improve_counter : ℕ
  is_early_stop : Bool
deriving DecidableEq

/-- Initial training state set by `_init_training_state`:
`best_val_loss = float('inf')`, `no_improve_counter = 0`,
`is_early_stop = False`. -/
def initEarlyStopState : EarlyStopState :=
  { best_val_loss := none, no_improve_counter := 0, is_early_stop := false }

/-- The improvement test `val_loss < self.best_val_loss - self.early_stop_delta`
with `best_val_loss` possibly `float('inf')` (`none`), in which case the
comparison is true for every finite `val_loss`. -/
def lossImproved (val_loss : ℚ) (best : Option ℚ) (delta : ℚ) : Bool :=
  match best with
  | none => true
  | some b => decide (val_loss < b - delta)

/-- One evaluation of `_check_early_stop(self, val_loss, epoch)`:
on improvement, record the new best loss and reset the counter; otherwise
increment the counter and set `is_early_stop` once it reaches the patience. -/
def checkEarlyStop (delta : ℚ) (patience : ℕ) (s : EarlyStopState)
    (val_loss : ℚ) : EarlyStopState :=
  if lossImproved val_loss s.best_val_loss delta then
    { best_val_loss := some val_loss
      no_improve_counter := 0
      is_early_stop := s.is_early_stop }
  else
    { best_val_loss := s.best_val_loss
      no_improve_counter := s.no_improve_counter + 1
      is_early_stop :=
        s.is_early_stop || decide (patience ≤ s.no_improve_counter + 1) }

/-- The epoch loop's use of the machine (`start`): `_check_early_stop` runs
once per completed epoch, and the loop breaks as soon as `is_early_stop`
is set.  Returns the final state together with the number of evaluations
actually performed. -/
def runEarlyStop (delta : ℚ) (patience : ℕ) :
    EarlyStopState → List ℚ → EarlyStopState × ℕ
  | s, [] => (s, 0)
  | s, v :: vs =>
    let s' := checkEarlyStop delta patience s v
    if s'.is_early_stop then (s', 1)
    else
      let r := runEarlyStop delta patience s' vs
      (r.1, r.2 + 1)

/-- The scripted validation-loss sequence of the spec's early-stop
determinism test. -/
def scriptedLosses : List ℚ := [1, 9/10, 95/100, 96/100, 97/100]

/-- C1: the early-stop machine updates `best_val_loss` and resets the counter
exactly when `val_loss < best_val_loss - delta`, otherwise increments the
counter and becomes STOPPED exactly when the counter reaches the patience;
on the scripted losses `[1.0, 0.9, 0.95, 0.96, 0.97]` with `delta = 0.01`,
`patience = 3` it reaches STOPPED at the 5th evaluation exactly. -/
theorem early_stop_machine_correct :
    (∀ (delta : ℚ) (patience : ℕ) (s : EarlyStopState) (v : ℚ),
      s.is_early_stop = false →
      (lossImproved v s.best_val_loss delta = true →
        checkEarlyStop delta patience s v =
          { best_val_loss := some v, no_improve_counter := 0,
            is_early_stop := false }) ∧
      (lossImproved v s.best_val_loss delta = false →
        (checkEarlyStop delta patience s v).best_val_loss = s.best_val_loss ∧
        (checkEarlyStop delta patience s v).no_improve_counter
          = s.no_improve_counter + 1 ∧
        ((checkEarlyStop delta patience s v).is_early_stop = true ↔
          patience ≤ s.no_improve_counter + 1))) ∧
    runEarlyStop (1/100) 3 initEarlyStopState scriptedLosses =
      ({ best_val_loss := some (9/10), no_improve_counter := 3,
         is_early_stop := true }, 5) := by
  constructor
  · intro delta patience s v hrun
    constructor
    · intro himp
      simp [checkEarlyStop, himp, hrun]
    · intro himp
      simp [checkEarlyStop, himp, hrun]
  · norm_num [runEarlyStop, checkEarlyStop, lossImproved, scriptedLosses,
      initEarlyStopState]

/-- Witness: the general step characterization of
`early_stop_machine_correct` applied at a concrete non-improving state. -/
theorem early_stop_machine_correct_witness :
    (checkEarlyStop (1/100) 3 ⟨some (9/10), 2, false⟩ (96/100)).no_improve_counter
      = 3 := by
  have h := (early_stop_machine_correct.1 (1/100) 3
      ⟨some (9/10), 2, false⟩ (96/100) rfl).2 (by norm_num [lossImproved])
  exact h.2.1

/- ===================================================================
   Checkpoint replacement policy
   (src/model/char/utils/file_util.py `_save_checkpoint`, lines 117-137,
    src/model/char/utils/model_util.py `save_checkpoint`, lines 23-47)
   =================================================================== -/

/-- `file.endswith('.pth')`: the suffix test used to recognize checkpoint
artifacts, on the string's character data. -/
def isPth (f : String) : Bool := ".pth".data.isSuffixOf f.data

/-- Zero-padded fixed-point rendering of a nonnegative rational with `d`
decimal digits, modelling Python's `f'{x:.df}'` formatting for values that
are exact at `d` decimals (the only way it is used here). -/
def fmtFixed (d : ℕ) (q : ℚ) : String :=
  let m := ⌊q * (10 : ℚ) ^ d⌋
  let frac := (m.toNat % 10 ^ d)
  let s := toString frac
  toString (m / (10 : ℤ) ^ d) ++ "." ++
    String.mk (List.replicate (d - s.length) '0') ++ s

/-- The checkpoint file name
`f'{model.name}_epoch{epoch}_acc{model.best_val_acc * 100:.2f}.pth'`
written by `_save_checkpoint`. -/
def ckptFileName (modelName : String) (epoch : ℕ) (best_val_acc : ℚ) : String :=
  modelName ++ "_epoch" ++ toString epoch ++ "_acc" ++
    fmtFixed 2 (best_val_acc * 100) ++ ".pth"

/-- One executed save task on the experiment directory (modelled as the list
of its file names): delete every file ending in `.pth`, then write the one
new checkpoint file. -/
def saveCheckpointExec (dir : List String) (newName : String) : List String :=
  dir.filter (fun f => !(isPth f)) ++ [newName]

/-- A drained sequence of save tasks executed in order. -/
def execSaves (dir : List String) (names : List String) : List String :=
  names.foldl saveCheckpointExec dir

/-- Number of checkpoint (`.pth`) artifacts in a directory. -/
def pthCount (dir : List String) : ℕ := dir.countP (fun f => isPth f)

/-- Any string obtained by appending `".pth"` passes the `.endswith('.pth')`
test. -/
theorem isPth_append_pth (s : String) : isPth (s ++ ".pth") = true := by
  have h : (s ++ ".pth").data = s.data ++ ".pth".data := String.data_append s _
  simp only [isPth, h]
  exact List.isSuffixOf_iff_suffix.mpr (List.suffix_append s.data ".pth".data)

/-- The generated checkpoint file name is recognized as a checkpoint. -/
theorem isPth_ckptFileName (modelName : String) (epoch : ℕ) (acc : ℚ) :
    isPth (ckptFileName modelName epoch acc) = true := by
  exact isPth_append_pth _

/-- After one executed save the directory holds exactly the checkpoints of
the singleton `[newName]`. -/
theorem pthCount_saveCheckpointExec (dir : List String) (newName : String) :
    pthCount (saveCheckpointExec dir newName) =
      if isPth newName then 1 else 0 := by
  unfold pthCount saveCheckpointExec
  rw [List.countP_append, List.countP_filter]
  simp [List.countP_cons]

/-- C2: each executed save task leaves exactly one checkpoint file in the
experiment directory (it deletes all existing `.pth` files, then writes the
single new one), and consequently a directory that starts with at most one
checkpoint artifact still has at most one after any drained sequence of
saves — never more. -/
theorem at_most_one_checkpoint_invariant :
    (∀ (dir : List String) (modelName : String) (epoch : ℕ) (acc : ℚ),
      pthCount (saveCheckpointExec dir (ckptFileName modelName epoch acc)) = 1) ∧
    (∀ (names : List String) (dir : List String), pthCount dir ≤ 1 →
      pthCount (execSaves dir names) ≤ 1) := by
  constructor
  · intro dir modelName epoch acc
    rw [pthCount_saveCheckpointExec, isPth_ckptFileName]
    rfl
  · intro names
    induction names with
    | nil => intro dir h; exact h
    | cons n rest ih =>
      intro dir _
      have h1 : pthCount (saveCheckpointExec dir n) ≤ 1 := by
        rw [pthCount_saveCheckpointExec]
        split <;> omega
      exact ih (saveCheckpointExec dir n) h1

/-- Witness: the invariant applied to a concrete fresh directory and two
consecutive saves. -/
theorem at_most_one_checkpoint_invariant_witness :
    pthCount (execSaves ["training_config.json"]
      [ckptFileName "resnet_multi_head" 1 (50/100),
       ckptFileName "resnet_multi_head" 2 (75/100)]) ≤ 1 := by
  have h0 : pthCount ["training_config.json"] ≤ 1 := by
    unfold pthCount
    simp [List.countP_cons, isPth, List.isSuffixOf]
  exact at_most_one_checkpoint_invariant.2 _ _ h0

/- ===================================================================
   Full-sequence and per-position accuracy
   (src/model/char/models/base_model.py `_calculate_accuracy`, lines 387-400,
    src/model/char/define/resnet.py `_eval` position statistics, lines 289-293,
    and the deviating per-character accuracy of
    src/model/char/model/resnet18.py `_calculate_accuracy`, lines 68-87)
   =================================================================== -/

/-- Helper for `torch.argmax`: scan the remaining scores keeping the index of
the first maximal entry seen so far. -/
def argmaxGo (bi : ℕ) (bv : ℚ) (i : ℕ) : List ℚ → ℕ
  | [] => bi
  | x :: xs => if bv < x then argmaxGo i x (i + 1) xs else argmaxGo bi bv (i + 1) xs

/-- `torch.argmax` over one row of class scores: index of the first maximal
entry (ties resolve to the first occurrence, as documented by torch). -/
def argmaxIdx : List ℚ → ℕ
  | [] => 0
  | x :: xs => argmaxGo 0 x 1 xs

/-- Model outputs are a Python list of per-position `[B, C]` tensors:
`outputs[i][b][c]` is the score of class `c` for sample `b` at character
position `i`.  `predFor outputs b` is row `b` of
`torch.stack([output.argmax(dim=1) for output in outputs], dim=1)`. -/
def predFor (outputs : List (List (List ℚ))) (b : ℕ) : List ℕ :=
  outputs.map (fun out => argmaxIdx (out.getD b []))

/-- `BaseModel._calculate_accuracy`: the accuracy component
`(predictions == labels).all(dim=1).sum().item() / labels.size(0)` — the
number of batch rows whose whole predicted sequence equals the label row,
divided by the batch size. -/
def fullSeqCalc (outputs : List (List (List ℚ))) (labels : List (List ℕ)) : ℚ :=
  let B := labels.length
  let preds := (List.range B).map (predFor outputs)
  (((preds.zip labels).countP (fun pl => decide (pl.1 = pl.2)) : ℕ) : ℚ) / B

/-- Modelled from the spec's words: full-sequence accuracy is the fraction of
samples whose argmax prediction matches the true label at every one of the
`L` positions. -/
def fullSeqSpec (outputs : List (List (List ℚ))) (labels : List (List ℕ)) : ℚ :=
  (((List.range labels.length).countP
      (fun b => decide (∀ pos < outputs.length,
        (predFor outputs b).getD pos 0 = (labels.getD b []).getD pos 0)) : ℕ) : ℚ)
    / labels.length

/-- Per-position accuracy for a batch, as computed in `_eval`:
`(preds[:, pos] == labels[:, pos]).sum().item() / labels.size(0)`. -/
def positionAccuracy (outputs : List (List (List ℚ))) (labels : List (List ℕ))
    (pos : ℕ) : ℚ :=
  (((List.range labels.length).countP
      (fun b => decide ((predFor outputs b).getD pos 0
        = (labels.getD b []).getD pos 0)) : ℕ) : ℚ)
    / labels.length

/-- Counting matching rows of a zip against an indexed count. -/
theorem countP_zip_range_map (labels : List (List ℕ)) :
    ∀ g : ℕ → List ℕ,
    (((List.range labels.length).map g).zip labels).countP
        (fun pl => decide (pl.1 = pl.2))
      = (List.range labels.length).countP
          (fun b => decide (g b = labels.getD b [])) := by
  induction labels with
  | nil => intro g; rfl
  | cons a l ih =>
    intro g
    simp only [List.length_cons, List.range_succ_eq_map, List.map_cons,
      List.map_map, List.zip_cons_cons, List.countP_cons, List.countP_map,
      List.getD_cons_zero, List.getD_cons_succ]
    rw [ih (g ∘ Nat.succ)]
    simp [Function.comp_def]

/-- Two rows of equal length are equal exactly when they agree position by
position. -/
theorem row_eq_iff_pointwise (p l : List ℕ) (h : p.length = l.length) :
    p = l ↔ ∀ pos < p.length, p.getD pos 0 = l.getD pos 0 := by
  constructor
  · intro he pos hp
    rw [he]
  · intro hpt
    refine List.ext_getElem h ?_
    intro n h1 h2
    have hx := hpt n h1
    rwa [List.getD_eq_getElem _ _ h1, List.getD_eq_getElem _ _ h2] at hx

/-- The one-hot score row used in the concrete accuracy example: class `c`
scores 1, every other class scores 0 (5 classes). -/
def oneHot (c : ℕ) : List ℚ := (List.range 5).map (fun i => if i = c then 1 else 0)

/-- Concrete example outputs: one sample whose argmax predictions are
`[0, 1, 2, 3]` over the 4 positions. -/
def exampleOutputs : List (List (List ℚ)) :=
  [[oneHot 0], [oneHot 1], [oneHot 2], [oneHot 3]]

/-- Concrete example labels `[[0, 1, 2, 4]]`. -/
def exampleLabels : List (List ℕ) := [[0, 1, 2, 4]]

/-- The accuracy of `ResNet18MultiHead._calculate_accuracy`
(src/model/char/model/resnet18.py lines 68-87): for each position
(`for i, output in enumerate(outputs)`) it adds
`(predicted == labels[:, i]).sum().item()` into one running count and
returns `total_correct / (labels.size(0) * labels.size(1))` — correctness
averaged over all B·L character slots, not over whole sequences. -/
def perCharCalc (outputs : List (List (List ℚ))) (labels : List (List ℕ)) : ℚ :=
  let total_correct :=
    outputs.enum.foldl
      (fun total_correct io =>
        total_correct + (List.range labels.length).countP
          (fun b => decide (argmaxIdx (io.2.getD b []) = (labels.getD b []).getD io.1 0)))
      0
  (total_correct : ℚ) / (labels.length * (labels.getD 0 []).length)

/-- C3 amended: full-sequence accuracy as computed by
`BaseModel._calculate_accuracy` (and identically by the define/resnet
`_calculate_accuracy`) equals the fraction of samples whose argmax
prediction matches the label at every one of the `L` positions (no partial
credit), and on the example with predictions `[[0,1,2,3]]` against labels
`[[0,1,2,4]]` it is `0.0` while per-position accuracy is `1.0` at
positions 0, 1, 2 and `0.0` at position 3; the also-cited accuracy of
`model/resnet18.py` however is position-averaged per-character accuracy and
grants partial credit, returning `0.75` on the same example. -/
theorem full_sequence_accuracy_strict :
    (∀ (outputs : List (List (List ℚ))) (labels : List (List ℕ)),
      (∀ row ∈ labels, row.length = outputs.length) →
      fullSeqCalc outputs labels = fullSeqSpec outputs labels) ∧
    fullSeqCalc exampleOutputs exampleLabels = 0 ∧
    positionAccuracy exampleOutputs exampleLabels 0 = 1 ∧
    positionAccuracy exampleOutputs exampleLabels 1 = 1 ∧
    positionAccuracy exampleOutputs exampleLabels 2 = 1 ∧
    positionAccuracy exampleOutputs exampleLabels 3 = 0 ∧
    perCharCalc exampleOutputs exampleLabels = 3/4 := by
  refine ⟨?_, ?_, ?_, ?_, ?_, ?_, ?_⟩
  · intro outputs labels hlen
    simp only [fullSeqCalc, fullSeqSpec]
    rw [countP_zip_range_map labels (predFor outputs)]
    congr 1
    congr 1
    refine List.countP_congr ?_
    intro b hb
    simp only [decide_eq_true_eq]
    have hblt : b < labels.length := List.mem_range.mp hb
    have hrow : labels.getD b [] = labels[b] := List.getD_eq_getElem _ _ hblt
    have hrlen : (labels.getD b []).length = outputs.length := by
      rw [hrow]
      exact hlen _ (List.getElem_mem hblt)
    have hplen : (predFor outputs b).length = outputs.length := by
      simp [predFor]
    rw [row_eq_iff_pointwise _ _ (by rw [hplen, hrlen]), hplen]
  · norm_num [fullSeqCalc, exampleOutputs, exampleLabels, predFor, argmaxIdx,
      argmaxGo, oneHot, List.range, List.range.loop, List.countP, List.countP.go]
  · norm_num [positionAccuracy, exampleOutputs, exampleLabels, predFor,
      argmaxIdx, argmaxGo, oneHot, List.range, List.range.loop, List.countP,
      List.countP.go]
  · norm_num [positionAccuracy, exampleOutputs, exampleLabels, predFor,
      argmaxIdx, argmaxGo, oneHot, List.range, List.range.loop, List.countP,
      List.countP.go]
  · norm_num [positionAccuracy, exampleOutputs, exampleLabels, predFor,
      argmaxIdx, argmaxGo, oneHot, List.range, List.range.loop, List.countP,
      List.countP.go]
  · norm_num [positionAccuracy, exampleOutputs, exampleLabels, predFor,
      argmaxIdx, argmaxGo, oneHot, List.range, List.range.loop, List.countP,
      List.countP.go]
  · norm_num [perCharCalc, exampleOutputs, exampleLabels, argmaxIdx, argmaxGo,
      oneHot, List.enum, List.enumFrom, List.range, List.range.loop,
      List.countP, List.countP.go, List.foldl]

/-- C3 counterexample: on the claim's own example the cited
`model/resnet18.py` accuracy returns `0.75`, not `0.0`: it counts the three
matching positions of the mismatched sample toward the accuracy, so that
cited implementation grants partial credit and full-sequence accuracy as
claimed is not what it computes. -/
theorem per_char_accuracy_partial_credit_counterexample :
    perCharCalc exampleOutputs exampleLabels = 3/4 ∧
    fullSeqCalc exampleOutputs exampleLabels = 0 ∧
    perCharCalc exampleOutputs exampleLabels
      ≠ fullSeqCalc exampleOutputs exampleLabels := by
  refine ⟨?_, ?_, ?_⟩ <;>
    norm_num [perCharCalc, fullSeqCalc, predFor, exampleOutputs, exampleLabels,
      argmaxIdx, argmaxGo, oneHot, List.enum, List.enumFrom, List.range,
      List.range.loop, List.countP, List.countP.go, List.foldl]

/-- Witness: the equivalence component of `full_sequence_accuracy_strict`
applied to the concrete example batch. -/
theorem full_sequence_accuracy_strict_witness :
    fullSeqCalc exampleOutputs exampleLabels
      = fullSeqSpec exampleOutputs exampleLabels := by
  refine full_sequence_accuracy_strict.1 exampleOutputs exampleLabels ?_
  intro row hrow
  simp only [exampleLabels, List.mem_singleton] at hrow
  subst hrow
  rfl

/- ===================================================================
   Best-validation-accuracy marker
   (src/model/char/define/resnet.py `start`, line 394:
      self.best_val_acc = max(self.best_val_acc, val_acc)
    src/model/char/executors/trainer.py `Trainer.train`, lines 176-184:
      if valid_metrics['accuracy'] > self.best_valid_acc: ...
    src/model/char/models/base_model.py `_init_training_state` lines 61-77
    and `train_model` lines 189-195: the same conditional update as written,
    but `_init_training_state` re-assigns `self.best_val_acc = None` at line
    77 — five lines after setting it to 0.0 — so the first comparison
    `val_acc > self.best_val_acc` raises TypeError and the variant never
    records a best)
   =================================================================== -/

/-- The recorded best validation accuracy after the first `k` epochs of a
run in `start`: fold of `max` over the epoch accuracies, from the initial
`best_val_acc = 0.0`. -/
def bestValAccAfter (val_accs : List ℚ) : ℚ := val_accs.foldl max 0

/-- The conditional update of `Trainer.train` (trainer.py line 176):
`if valid_metrics['accuracy'] > self.best_valid_acc:
self.best_valid_acc = valid_metrics['accuracy']`.  (`train_model` in
base_model.py line 189 spells the same update, but there it never evaluates
successfully — see `baseModelSaveStep` below.) -/
def bestUpdate (best val_acc : ℚ) : ℚ := if val_acc > best then val_acc else best

/-- The recorded best after `k` epochs under the `Trainer.train`
conditional-update recording, from the class-level initial
`best_valid_acc = 0.0` of a fresh first instance. -/
def bestValAccAfterCond (val_accs : List ℚ) : ℚ := val_accs.foldl bestUpdate 0

/-- The message of the Python TypeError raised by ordering a float against
None (paraphrased without quote characters). -/
def pyTypeErrorMsg : String :=
  "TypeError: unsupported comparison between float and NoneType"

/-- Python `>` applied to a float and a possibly-None value: comparing
against `None` raises TypeError; otherwise it is the rational comparison. -/
def pyGtOpt (val : ℚ) (best : Option ℚ) : Except String Bool :=
  match best with
  | none => .error pyTypeErrorMsg
  | some b => .ok (decide (val > b))

/-- The value of `self.best_val_acc` when `train_model` reaches its first
comparison: `_init_training_state` sets it to 0.0 (base_model.py line 64)
and then re-assigns it to `None` (line 77), and `train_model` calls that
method unconditionally before the epoch loop. -/
def baseModelInitBestValAcc : Option ℚ := none

/-- The best-model bookkeeping of one epoch in `BaseModel.train_model`
(lines 189-195): evaluate `val_acc > self.best_val_acc` — a raised
TypeError propagates out of `train_model` — otherwise record the new best
and call `save_checkpoint` exactly on the true branch (the returned flag). -/
def baseModelSaveStep (best : Option ℚ) (val_acc : ℚ) :
    Except String (Option ℚ × Bool) :=
  match pyGtOpt val_acc best with
  | .error e => .error e
  | .ok true => .ok (some val_acc, true)
  | .ok false => .ok (best, false)

/-- Folding `max` never decreases below the seed. -/
theorem le_foldl_max (l : List ℚ) : ∀ b : ℚ, b ≤ l.foldl max b := by
  induction l with
  | nil => intro b; exact le_refl b
  | cons x xs ih => intro b; exact le_trans (le_max_left b x) (ih (max b x))

/-- The conditional update is the same function as `max`. -/
theorem bestUpdate_eq_max (b a : ℚ) : bestUpdate b a = max b a := by
  unfold bestUpdate
  rcases lt_or_ge b a with h | h
  · rw [if_pos h, max_eq_right h.le]
  · rw [if_neg (not_lt.mpr h), max_eq_left h]

/-- Both best-update variants compute the same running maximum. -/
theorem bestValAccAfterCond_eq (l : List ℚ) : bestValAccAfterCond l = bestValAccAfter l := by
  unfold bestValAccAfterCond bestValAccAfter
  suffices h : ∀ b : ℚ, l.foldl bestUpdate b = l.foldl max b from h 0
  induction l with
  | nil => intro b; rfl
  | cons x xs ih =>
    intro b
    simp only [List.foldl_cons, bestUpdate_eq_max]
    exact ih (max b x)

/-- Taking a longer prefix of the run can only increase the folded best. -/
theorem bestValAccAfter_take_mono (l : List ℚ) (i j : ℕ) (hij : i ≤ j) :
    bestValAccAfter (l.take i) ≤ bestValAccAfter (l.take j) := by
  have htt : (l.take j).take i = l.take i := by
    rw [List.take_take, min_eq_left hij]
  have hsplit : (l.take j).take i ++ (l.take j).drop i = l.take j :=
    List.take_append_drop i (l.take j)
  calc bestValAccAfter (l.take i)
      = bestValAccAfter ((l.take j).take i) := by rw [htt]
    _ ≤ bestValAccAfter ((l.take j).take i ++ (l.take j).drop i) := by
        unfold bestValAccAfter
        rw [List.foldl_append]
        exact le_foldl_max _ _
    _ = bestValAccAfter (l.take j) := by rw [hsplit]

/-- C4: in the variants that maintain the marker — the define/resnet
running maximum and the `Trainer.train` conditional update — the recorded
best validation accuracy is monotonically non-decreasing across a run: for
epochs `i ≤ j` the best recorded after epoch `j` is at least the best
recorded after epoch `i`.  The cited `BaseModel.train_model` variant never
maintains the marker at all: from the state its own `_init_training_state`
leaves behind (`best_val_acc = None`), the first comparison raises
TypeError for every validation accuracy, so no best is ever recorded
there. -/
theorem best_val_acc_monotone (val_accs : List ℚ) (i j : ℕ) (hij : i ≤ j) :
    (bestValAccAfter (val_accs.take i) ≤ bestValAccAfter (val_accs.take j) ∧
     bestValAccAfterCond (val_accs.take i)
       ≤ bestValAccAfterCond (val_accs.take j)) ∧
    (∀ v : ℚ, baseModelSaveStep baseModelInitBestValAcc v
      = .error pyTypeErrorMsg) := by
  refine ⟨⟨bestValAccAfter_take_mono val_accs i j hij, ?_⟩, ?_⟩
  · rw [bestValAccAfterCond_eq, bestValAccAfterCond_eq]
    exact bestValAccAfter_take_mono val_accs i j hij
  · intro v
    rfl

/-- Witness: monotonicity of the best marker on the concrete accuracy
history `[0.5, 0.25, 0.75]` between epochs 1 and 3, and the TypeError of
the BaseModel variant at the concrete first-epoch accuracy 0.5. -/
theorem best_val_acc_monotone_witness :
    (bestValAccAfter ([1/2, 1/4, 3/4].take 1)
      ≤ bestValAccAfter ([1/2, 1/4, 3/4].take 3)) ∧
    baseModelSaveStep baseModelInitBestValAcc (1/2) = .error pyTypeErrorMsg := by
  have h := best_val_acc_monotone [1/2, 1/4, 3/4] 1 3 (by norm_num)
  exact ⟨h.1.1, h.2 (1/2)⟩

/- ===================================================================
   Checkpoint-save qualification policy
   (src/model/char/utils/file_util.py `save_checkpoint`, lines 86-92,
    src/model/char/executors/trainer.py `Trainer.train`, lines 176-184,
    src/model/char/models/base_model.py `train_model`, lines 189-195 —
    the latter embedded by `baseModelSaveStep` above, since its comparison
    raises TypeError on the None-initialized best)
   =================================================================== -/

/-- `start()` updates the marker before calling `save_checkpoint`:
`self.best_val_acc = max(self.best_val_acc, val_acc)`. -/
def updateBestThenSave (prev_best val_acc : ℚ) : ℚ := max prev_best val_acc

/-- The early-return gate of `file_util.save_checkpoint`:
`if model.val_accs[-1] < model.best_val_acc: return` — the task is enqueued
exactly when the gate is `true`. -/
def saveCheckpointGate (last_val_acc best_val_acc : ℚ) : Bool :=
  !(decide (last_val_acc < best_val_acc))

/-- Whether the define/resnet pipeline enqueues a checkpoint-save task for an
epoch: `start()` first raises the marker to `max(prev_best, val_acc)`, then
`save_checkpoint` compares the epoch's accuracy against the raised marker. -/
def enqueueSaveDecision (prev_best val_acc : ℚ) : Bool :=
  saveCheckpointGate val_acc (updateBestThenSave prev_best val_acc)

/-- Whether `Trainer.train` (trainer.py lines 176-184) saves for an epoch:
`if valid_metrics['accuracy'] > self.best_valid_acc: ... save_checkpoint(self)`.
(The textually similar comparison in `BaseModel.train_model` is embedded by
`baseModelSaveStep`: there the best is None, so it raises instead of
deciding.) -/
def trainerSaveDecision (prev_best val_acc : ℚ) : Bool :=
  decide (val_acc > prev_best)

/-- C5 counterexample: on an epoch whose validation accuracy merely ties the
run best (`prev_best = val_acc = 1/2`), the define/resnet pipeline *does*
enqueue a save although the accuracy is not strictly greater than the best
recorded before the epoch, while the Trainer variant does not save — so the
claimed strict (`>`) rule is wrong for one cited variant and no single
comparison direction is applied consistently; and the cited
`BaseModel.train_model` comparison does not decide at all at that epoch —
it raises TypeError on its None-initialized best. -/
theorem save_policy_not_strict_counterexample :
    enqueueSaveDecision (1/2) (1/2) = true ∧
    ¬((1:ℚ)/2 > 1/2) ∧
    trainerSaveDecision (1/2) (1/2) = false ∧
    enqueueSaveDecision (1/2) (1/2) ≠ trainerSaveDecision (1/2) (1/2) ∧
    baseModelSaveStep baseModelInitBestValAcc (1/2) = .error pyTypeErrorMsg := by
  refine ⟨?_, by norm_num, ?_, ?_, rfl⟩
  · simp [enqueueSaveDecision, saveCheckpointGate, updateBestThenSave]
  · simp [trainerSaveDecision]
  · simp [enqueueSaveDecision, saveCheckpointGate, updateBestThenSave,
      trainerSaveDecision]

/-- C5 amended: the save-qualification behavior differs across the cited
variants.  `Trainer.train` saves exactly when the epoch's validation
accuracy is strictly greater than the best recorded before the epoch; the
define/resnet pipeline enqueues exactly when it is greater *or equal*
(ties qualify); and `BaseModel.train_model` never saves at all — from the
state its initializer leaves, its comparison raises TypeError for every
validation accuracy, aborting the run before any save.  So no single
comparison direction is applied consistently, and in the two working
variants every non-qualifying epoch enqueues nothing (the decision is the
enqueue condition itself). -/
theorem save_policy_per_variant (prev_best val_acc : ℚ) :
    (trainerSaveDecision prev_best val_acc = true ↔ val_acc > prev_best) ∧
    (enqueueSaveDecision prev_best val_acc = true ↔ prev_best ≤ val_acc) ∧
    (∀ v : ℚ, baseModelSaveStep baseModelInitBestValAcc v
      = .error pyTypeErrorMsg) := by
  refine ⟨?_, ?_, fun v => rfl⟩
  · simp [trainerSaveDecision]
  · simp only [enqueueSaveDecision, saveCheckpointGate, updateBestThenSave,
      Bool.not_eq_true', decide_eq_false_iff_not, not_lt]
    constructor
    · intro h
      rcases max_cases prev_best val_acc with ⟨hm, _⟩ | ⟨hm, hlt⟩
      · rw [hm] at h
        exact h
      · exact hlt.le
    · intro h
      rw [max_eq_right h]

/-- Witness: the per-variant characterization applied at a strict
improvement (which the BaseModel variant still cannot record). -/
theorem save_policy_per_variant_witness :
    trainerSaveDecision (1/4) (1/2) = true ∧
    enqueueSaveDecision (1/4) (1/2) = true ∧
    baseModelSaveStep baseModelInitBestValAcc (1/2) = .error pyTypeErrorMsg := by
  have h := save_policy_per_variant (1/4) (1/2)
  exact ⟨h.1.mpr (by norm_num), h.2.1.mpr (by norm_num), h.2.2 (1/2)⟩

/- ===================================================================
   SaveManager: background worker, FIFO queue, shutdown drain
   (src/model/char/utils/file_util.py `SaveManager`, lines 54-84:
    `add_task` lines 61-67, `_process_queue` lines 69-77,
    `shutdown` lines 79-82)
   =================================================================== -/

/-- Program counter of the background worker thread running
`_process_queue`: not yet started (before the first `add_task`), at the
loop condition `while self.running or not self.save_queue.empty()`, blocked
inside `self.save_queue.get()`, or exited (loop condition false). -/
inductive WorkerPC
  | notStarted
  | atCheck
  | atGet
  | exited
deriving DecidableEq

/-- Program counter of the orchestrator thread: still enqueuing tasks,
`shutdown` has set `running = False`, or `save_thread.join()` returned. -/
inductive ProdPC
  | enqueuing
  | signaled
  | joined
deriving DecidableEq

/-- Shared state of the orchestrator thread and the save worker: the FIFO
`save_queue`, the `running` flag, the tasks executed so far (in execution
order), the orchestrator's not-yet-enqueued tasks, and the two program
counters. -/
structure MgrState where
  queue : List ℕ
  running : Bool
  executed : List ℕ
  pending : List ℕ
  wpc : WorkerPC
  ppc : ProdPC
deriving DecidableEq

/-- Initial state: empty queue, `running = True`, no worker thread yet,
the orchestrator holding the whole task list. -/
def mgrInit (tasks : List ℕ) : MgrState :=
  { queue := [], running := true, executed := [], pending := tasks,
    wpc := .notStarted, ppc := .enqueuing }

/-- One interleaved step of the orchestrator thread or the worker thread.
`enqueue` is `add_task` (starting the worker thread on first use, then
`save_queue.put`); `shutdownSignal` is `self.running = False`; `join` is
`save_thread.join()` returning, which requires the worker to have exited
(or never to have been started); `workerExit` and `workerCont` are the two
outcomes of the loop condition `self.running or not self.save_queue.empty()`;
`workerTake` is `save_queue.get()` returning a task and the task body
running to completion. -/
inductive MgrStep : MgrState → MgrState → Prop
  | enqueue (s : MgrState) (t : ℕ) (rest : List ℕ)
      (hp : s.ppc = .enqueuing) (hq : s.pending = t :: rest) :
      MgrStep s { s with queue := s.queue ++ [t], pending := rest,
                         wpc := if s.wpc = .notStarted then .atCheck else s.wpc }
  | shutdownSignal (s : MgrState)
      (hp : s.ppc = .enqueuing) (hq : s.pending = []) :
      MgrStep s { s with running := false, ppc := .signaled }
  | join (s : MgrState)
      (hp : s.ppc = .signaled) (hw : s.wpc = .exited ∨ s.wpc = .notStarted) :
      MgrStep s { s with ppc := .joined }
  | workerExit (s : MgrState)
      (hw : s.wpc = .atCheck) (hr : s.running = false) (hq : s.queue = []) :
      MgrStep s { s with wpc := .exited }
  | workerCont (s : MgrState)
      (hw : s.wpc = .atCheck) (hr : s.running = true ∨ s.queue ≠ []) :
      MgrStep s { s with wpc := .atGet }
  | workerTake (s : MgrState) (t : ℕ) (rest : List ℕ)
      (hw : s.wpc = .atGet) (hq : s.queue = t :: rest) :
      MgrStep s { s with queue := rest, executed := s.executed ++ [t],
                         wpc := .atCheck }

/-- States reachable from the initial state by interleaving. -/
inductive MgrReach (tasks : List ℕ) : MgrState → Prop
  | init : MgrReach tasks (mgrInit tasks)
  | step {s s' : MgrState} : MgrReach tasks s → MgrStep s s' → MgrReach tasks s'

/-- Inductive invariant of the SaveManager system. -/
def MgrInv (tasks : List ℕ) (s : MgrState) : Prop :=
  s.executed ++ s.queue ++ s.pending = tasks ∧
  (s.running = true ↔ s.ppc = .enqueuing) ∧
  (s.ppc ≠ .enqueuing → s.pending = []) ∧
  (s.wpc = .exited → s.queue = [] ∧ s.running = false) ∧
  (s.wpc = .notStarted → s.executed = [] ∧ s.queue = [] ∧ s.pending = tasks) ∧
  (s.ppc = .joined → s.wpc = .exited ∨ s.wpc = .notStarted)

theorem mgrInv_init (tasks : List ℕ) : MgrInv tasks (mgrInit tasks) := by
  refine ⟨by simp [mgrInit], by simp [mgrInit], ?_, ?_, ?_, ?_⟩ <;>
    simp [mgrInit]

theorem mgrInv_step {tasks : List ℕ} {s s' : MgrState}
    (hinv : MgrInv tasks s) (hstep : MgrStep s s') : MgrInv tasks s' := by
  obtain ⟨h1, h2, h3, h4, h5, h6⟩ := hinv
  cases hstep with
  | enqueue t rest hp hq =>
    have hrun : s.running = true := h2.mpr hp
    have hwne : s.wpc ≠ WorkerPC.exited := by
      intro hx
      rw [(h4 hx).2] at hrun
      exact Bool.noConfusion hrun
    refine ⟨?_, ?_, ?_, ?_, ?_, ?_⟩ <;> dsimp only
    · rw [← h1, hq]
      simp
    · exact h2
    · intro h
      exact absurd hp h
    · intro h
      by_cases hns : s.wpc = WorkerPC.notStarted
      · rw [if_pos hns] at h
        exact WorkerPC.noConfusion h
      · rw [if_neg hns] at h
        exact absurd h hwne
    · intro h
      by_cases hns : s.wpc = WorkerPC.notStarted
      · rw [if_pos hns] at h
        exact WorkerPC.noConfusion h
      · rw [if_neg hns] at h
        exact absurd h hns
    · intro h
      exact ProdPC.noConfusion (hp.symm.trans h)
  | shutdownSignal hp hq =>
    refine ⟨?_, ?_, ?_, ?_, ?_, ?_⟩ <;> dsimp only
    · exact h1
    · simp
    · intro _
      exact hq
    · intro h
      exact ⟨(h4 h).1, rfl⟩
    · intro h
      exact h5 h
    · intro h
      exact ProdPC.noConfusion h
  | join hp hw =>
    have hne : s.ppc ≠ ProdPC.enqueuing := by
      rw [hp]
      exact fun hc => ProdPC.noConfusion hc
    refine ⟨?_, ?_, ?_, ?_, ?_, ?_⟩ <;> dsimp only
    · exact h1
    · constructor
      · intro hr
        exact absurd (hp.symm.trans (h2.mp hr)) (fun hc => ProdPC.noConfusion hc)
      · intro hj
        exact absurd hj (fun hc => ProdPC.noConfusion hc)
    · intro _
      exact h3 hne
    · exact h4
    · exact h5
    · intro _
      exact hw
  | workerExit hw hr hq =>
    refine ⟨?_, ?_, ?_, ?_, ?_, ?_⟩ <;> dsimp only
    · exact h1
    · exact h2
    · exact h3
    · intro _
      exact ⟨hq, hr⟩
    · intro h
      exact WorkerPC.noConfusion h
    · intro _
      exact Or.inl rfl
  | workerCont hw hr =>
    refine ⟨?_, ?_, ?_, ?_, ?_, ?_⟩ <;> dsimp only
    · exact h1
    · exact h2
    · exact h3
    · intro h
      exact WorkerPC.noConfusion h
    · intro h
      exact WorkerPC.noConfusion h
    · intro h
      rcases h6 h with hx | hx
      · exact WorkerPC.noConfusion (hw.symm.trans hx)
      · exact WorkerPC.noConfusion (hw.symm.trans hx)
  | workerTake t rest hw hq =>
    refine ⟨?_, ?_, ?_, ?_, ?_, ?_⟩ <;> dsimp only
    · rw [← h1, hq]
      simp
    · exact h2
    · exact h3
    · intro h
      exact WorkerPC.noConfusion h
    · intro h
      exact WorkerPC.noConfusion h
    · intro h
      rcases h6 h with hx | hx
      · exact WorkerPC.noConfusion (hw.symm.trans hx)
      · exact WorkerPC.noConfusion (hw.symm.trans hx)

theorem mgrInv_reach {tasks : List ℕ} {s : MgrState}
    (h : MgrReach tasks s) : MgrInv tasks s := by
  induction h with
  | init => exact mgrInv_init tasks
  | step _ hstep ih => exact mgrInv_step ih hstep

/-- C6: in every reachable state in which `shutdown()` has returned
(`join` completed), every task that was ever enqueued has been executed,
exactly once and in FIFO enqueue order (`executed` equals the original task
list), and the queue is empty — `shutdown` never returns with tasks still
pending. -/
theorem shutdown_drains_queue (tasks : List ℕ) (s : MgrState)
    (hreach : MgrReach tasks s) (hjoined : s.ppc = .joined) :
    s.executed = tasks ∧ s.queue = [] := by
  obtain ⟨h1, _, h3, h4, h5, h6⟩ := mgrInv_reach hreach
  have hpend : s.pending = [] := h3 (by simp [hjoined])
  rcases h6 hjoined with hx | hx
  · obtain ⟨hq, _⟩ := h4 hx
    constructor
    · rw [← h1, hq, hpend]
      simp
    · exact hq
  · obtain ⟨he, hq, hp⟩ := h5 hx
    rw [hpend] at hp
    constructor
    · rw [he, ← hp]
    · exact hq

/-- Witness: a complete concrete interleaving for the task list `[0, 1]` —
enqueue both tasks, worker takes both, orchestrator signals shutdown, worker
exits, join returns — after which `shutdown_drains_queue` yields the drained
queue and the FIFO execution record. -/
theorem shutdown_drains_queue_witness :
    (⟨[], false, [0, 1], [], .exited, .joined⟩ : MgrState).executed = [0, 1] ∧
    (⟨[], false, [0, 1], [], .exited, .joined⟩ : MgrState).queue = [] := by
  refine shutdown_drains_queue [0, 1] _ ?_ rfl
  have r0 : MgrReach [0, 1] (mgrInit [0, 1]) := MgrReach.init
  have r1 : MgrReach [0, 1]
      (⟨[0], true, [], [1], .atCheck, .enqueuing⟩ : MgrState) :=
    MgrReach.step r0 (MgrStep.enqueue _ 0 [1] rfl rfl)
  have r2 : MgrReach [0, 1]
      (⟨[0, 1], true, [], [], .atCheck, .enqueuing⟩ : MgrState) :=
    MgrReach.step r1 (MgrStep.enqueue _ 1 [] rfl rfl)
  have r3 : MgrReach [0, 1]
      (⟨[0, 1], true, [], [], .atGet, .enqueuing⟩ : MgrState) :=
    MgrReach.step r2 (MgrStep.workerCont _ rfl (Or.inl rfl))
  have r4 : MgrReach [0, 1]
      (⟨[1], true, [0], [], .atCheck, .enqueuing⟩ : MgrState) :=
    MgrReach.step r3 (MgrStep.workerTake _ 0 [1] rfl rfl)
  have r5 : MgrReach [0, 1]
      (⟨[1], true, [0], [], .atGet, .enqueuing⟩ : MgrState) :=
    MgrReach.step r4 (MgrStep.workerCont _ rfl (Or.inl rfl))
  have r6 : MgrReach [0, 1]
      (⟨[], true, [0, 1], [], .atCheck, .enqueuing⟩ : MgrState) :=
    MgrReach.step r5 (MgrStep.workerTake _ 1 [] rfl rfl)
  have r7 : MgrReach [0, 1]
      (⟨[], false, [0, 1], [], .atCheck, .signaled⟩ : MgrState) :=
    MgrReach.step r6 (MgrStep.shutdownSignal _ rfl rfl)
  have r8 : MgrReach [0, 1]
      (⟨[], false, [0, 1], [], .exited, .signaled⟩ : MgrState) :=
    MgrReach.step r7 (MgrStep.workerExit _ rfl rfl rfl)
  exact MgrReach.step r8 (MgrStep.join _ rfl (Or.inl rfl))

/- ===================================================================
   Worker error handling
   (src/model/char/utils/file_util.py `_process_queue` body, lines 71-77:
      try: task = get(); task()
      except Exception as e: print(f"... 保存任务执行失败: ...")
      finally: task_done())
   =================================================================== -/

/-- Outcome of invoking one save-task closure: it either returns normally or
raises an exception carrying a message. -/
inductive TaskOutcome
  | ok
  | raises (msg : String)
deriving DecidableEq

/-- An enqueued save task: an identifier plus what happens when it runs. -/
structure STask where
  id : ℕ
  outcome : TaskOutcome
deriving DecidableEq

/-- One iteration of the worker's loop body around `task()`: the
`try/except` converts an exception into a printed log line
(`保存任务执行失败: <msg>`) instead of propagating it. -/
def processTask (t : STask) : Option String :=
  match t.outcome with
  | .ok => none
  | .raises m => some ("保存任务执行失败: " ++ m)

/-- The worker draining the queued tasks in order, recording the id of every
task it invoked and the log lines produced by failing tasks.  The function is
total: no exception ever escapes the loop body. -/
def drainTasks : List STask → List ℕ × List String
  | [] => ([], [])
  | t :: rest =>
    let r := drainTasks rest
    (t.id :: r.1, (processTask t).toList ++ r.2)

/-- The drained execution record is the whole id list, in order. -/
theorem drainTasks_fst (tasks : List STask) :
    (drainTasks tasks).1 = tasks.map (fun t => t.id) := by
  induction tasks with
  | nil => rfl
  | cons t rest ih =>
    simp only [drainTasks, List.map_cons]
    rw [ih]

/-- The log component collects exactly the messages of the failing tasks. -/
theorem drainTasks_snd (tasks : List STask) :
    (drainTasks tasks).2 = tasks.filterMap processTask := by
  induction tasks with
  | nil => rfl
  | cons t rest ih =>
    simp only [drainTasks, List.filterMap_cons]
    cases h : processTask t <;> simp [h, ih]

/-- C7: an exception raised inside one enqueued save task is caught and
logged and does not propagate: even with a failing task in the middle of the
queue, the worker still executes every task (including each one after the
failure) exactly once in order, the failure is recorded as a log line, and
the drain function is total, so no error reaches the orchestrator thread. -/
theorem worker_survives_task_failure (pre post : List STask) (t : STask)
    (m : String) (hfail : t.outcome = .raises m) :
    (drainTasks (pre ++ t :: post)).1 = (pre ++ t :: post).map (fun u => u.id) ∧
    ("保存任务执行失败: " ++ m) ∈ (drainTasks (pre ++ t :: post)).2 := by
  refine ⟨drainTasks_fst _, ?_⟩
  rw [drainTasks_snd]
  refine List.mem_filterMap.mpr ⟨t, ?_, ?_⟩
  · simp
  · simp [processTask, hfail]

/-- Witness: a three-task queue whose middle task raises; both the first and
the last task still execute, and the failure is logged. -/
theorem worker_survives_task_failure_witness :
    (drainTasks [⟨0, .ok⟩, ⟨1, .raises "disk full"⟩, ⟨2, .ok⟩]).1 = [0, 1, 2] ∧
    ("保存任务执行失败: " ++ "disk full")
      ∈ (drainTasks [⟨0, .ok⟩, ⟨1, .raises "disk full"⟩, ⟨2, .ok⟩]).2 := by
  have h := worker_survives_task_failure [⟨0, .ok⟩] [⟨2, .ok⟩]
    ⟨1, .raises "disk full"⟩ "disk full" rfl
  exact h

/- ===================================================================
   Per-batch loss accumulation and non-finite losses
   (src/model/char/models/base_model.py `_train_epoch`, lines 243-272,
    src/model/char/define/resnet.py `_train`, lines 330-347:
    the loop body is `total_loss += loss.item()` with no finiteness check,
    no exception raise, and no early exit)
   =================================================================== -/

/-- A float loss value as observed by `loss.item()`: NaN, plus infinity, or
a finite value.  (Cross-entropy losses are nonnegative, so negative infinity
does not arise.) -/
inductive FVal
  | nan
  | inf
  | fin (q : ℚ)
deriving DecidableEq

/-- IEEE-style addition on loss values: NaN absorbs, infinity dominates
finite values. -/
def FVal.add : FVal → FVal → FVal
  | .nan, _ => .nan
  | _, .nan => .nan
  | .inf, _ => .inf
  | _, .inf => .inf
  | .fin a, .fin b => .fin (a + b)

/-- NaN absorbs on the right as well. -/
theorem FVal.add_nan (x : FVal) : FVal.add x .nan = .nan := by
  cases x <;> rfl

/-- Result of one call of `_train_epoch` on a batch sequence: how many
batches the loop iterated and the accumulated `total_loss`. -/
structure EpochOutcome where
  processed : ℕ
  total_loss : FVal
deriving DecidableEq

/-- The `_train_epoch` loop over the per-batch `loss.item()` values (the
loss computation itself is the external model/optimizer contract): every
batch unconditionally executes `total_loss += loss.item()` and the loop
continues — the source contains no finiteness check and no abort path, so
the embedding is a total function. -/
def trainEpochLoop : List FVal → FVal → ℕ → EpochOutcome
  | [], acc, n => { processed := n, total_loss := acc }
  | l :: rest, acc, n => trainEpochLoop rest (acc.add l) (n + 1)

/-- `_train_epoch` starting from `total_loss = 0` before the batch loop. -/
def trainEpochTotals (batch_losses : List FVal) : EpochOutcome :=
  trainEpochLoop batch_losses (.fin 0) 0

/-- Batch counting is independent of the accumulator. -/
theorem trainEpochLoop_processed (losses : List FVal) :
    ∀ (acc : FVal) (n : ℕ),
      (trainEpochLoop losses acc n).processed = n + losses.length := by
  induction losses with
  | nil => intro acc n; simp [trainEpochLoop]
  | cons l rest ih =>
    intro acc n
    simp only [trainEpochLoop, List.length_cons]
    rw [ih]
    omega

/-- Once the accumulator is NaN it stays NaN. -/
theorem trainEpochLoop_nan (losses : List FVal) :
    ∀ n : ℕ, (trainEpochLoop losses .nan n).total_loss = .nan := by
  induction losses with
  | nil => intro n; rfl
  | cons l rest ih =>
    intro n
    simp only [trainEpochLoop, FVal.add]
    exact ih (n + 1)

/-- C8 counterexample: with the concrete batch-loss sequence
`[1.0, NaN, 2.0]` the epoch loop processes all three batches — it does not
terminate at the non-finite loss (which would leave at most 2 batches
processed), no error is raised (the embedding is total and returns an
`EpochOutcome`), and the NaN is folded into the running total instead. -/
theorem nonfinite_loss_not_fatal_counterexample :
    (trainEpochTotals [.fin 1, .nan, .fin 2]).processed = 3 ∧
    ¬((trainEpochTotals [.fin 1, .nan, .fin 2]).processed ≤ 2) ∧
    (trainEpochTotals [.fin 1, .nan, .fin 2]).total_loss = .nan := by
  refine ⟨rfl, by decide, rfl⟩

/-- A NaN anywhere in the batch sequence poisons the accumulated total. -/
theorem trainEpochLoop_nan_mem (post : List FVal) :
    ∀ (pre : List FVal) (acc : FVal) (n : ℕ),
      (trainEpochLoop (pre ++ FVal.nan :: post) acc n).total_loss = .nan := by
  intro pre
  induction pre with
  | nil =>
    intro acc n
    simp only [List.nil_append, trainEpochLoop, FVal.add_nan]
    exact trainEpochLoop_nan post (n + 1)
  | cons p rest ih =>
    intro acc n
    simp only [List.cons_append, trainEpochLoop]
    exact ih (acc.add p) (n + 1)

/-- C8 amended: the training loop has no finiteness check: every batch of
the epoch is processed regardless of non-finite losses, and whenever some
batch loss is NaN the accumulated epoch total (hence the appended loss
series entry) is NaN — the run silently continues rather than aborting. -/
theorem nonfinite_loss_propagates (batch_losses : List FVal) :
    (trainEpochTotals batch_losses).processed = batch_losses.length ∧
    (FVal.nan ∈ batch_losses →
      (trainEpochTotals batch_losses).total_loss = .nan) := by
  constructor
  · unfold trainEpochTotals
    rw [trainEpochLoop_processed]
    omega
  · intro hmem
    unfold trainEpochTotals
    obtain ⟨pre, post, hsplit⟩ := List.append_of_mem hmem
    subst hsplit
    exact trainEpochLoop_nan_mem post pre (.fin 0) 0

/-- Witness: the amended statement applied to the concrete sequence
`[1.0, NaN, 2.0]`. -/
theorem nonfinite_loss_propagates_witness :
    (trainEpochTotals [.fin 1, .nan, .fin 2]).processed = 3 ∧
    (trainEpochTotals [.fin 1, .nan, .fin 2]).total_loss = .nan := by
  have h := nonfinite_loss_propagates [.fin 1, .nan, .fin 2]
  exact ⟨h.1, h.2 (by decide)⟩

/- ===================================================================
   Final export
   (src/model/char/utils/file_util.py `_do_final_save`, lines 98-115,
    src/model/char/utils/model_util.py `save_final_model`, lines 53-108)
   =================================================================== -/

/-- The keys deleted from the loaded checkpoint state by `_do_final_save`:
`for key in ['optimizer_state_dict', 'scheduler_state_dict', 'epoch']:
   if key in state: del state[key]`. -/
def strippedKeys : List String := ["optimizer_state_dict", "scheduler_state_dict", "epoch"]

/-- Deleting the three keys from a checkpoint state dict (modelled as an
ordered association list, as Python dicts preserve insertion order). -/
def stripFinalKeys {α : Type} (state : List (String × α)) : List (String × α) :=
  state.filter (fun kv => !(decide (kv.1 ∈ strippedKeys)))

/-- The scan of `_do_final_save` locating the checkpoint:
the first file of the experiment directory ending in `.pth`. -/
def findFirstPth {α : Type} (files : List (String × List (String × α))) :
    Option (String × List (String × α)) :=
  files.find? (fun f => isPth f.1)

/-- The stable export file name `f'{model.name}.pth'` used by
`_do_final_save` — a function of the model name only, not of any epoch or
accuracy. -/
def finalExportName (modelName : String) : String := modelName ++ ".pth"

/-- `_do_final_save`: load the first `.pth` checkpoint of the experiment
directory (warn and do nothing when none exists), delete the optimizer,
scheduler and epoch entries, and write the result to the stable export
path. -/
def doFinalSave {α : Type} (modelName : String)
    (files : List (String × List (String × α))) :
    Option (String × List (String × α)) :=
  match findFirstPth files with
  | none => none
  | some f => some (finalExportName modelName, stripFinalKeys f.2)

/-- The export file name
`f"{model.model_type}_final_acc{model.best_val_acc:.4f}.pth"` used by the
`model_util.save_final_model` variant on the no-early-stop path. -/
def modelUtilFinalExportName (model_type : String) (best_val_acc : ℚ) : String :=
  model_type ++ "_final_acc" ++ fmtFixed 4 best_val_acc ++ ".pth"

/-- Rendering 0.95 at 4 decimals. -/
theorem fmtFixed_four_95 : fmtFixed 4 (95/100) = "0.9500" := by
  have h : ⌊(95/100 : ℚ) * (10 : ℚ) ^ 4⌋ = 9500 := by norm_num
  simp only [fmtFixed, h]
  rfl

/-- Rendering 0.96 at 4 decimals. -/
theorem fmtFixed_four_96 : fmtFixed 4 (96/100) = "0.9600" := by
  have h : ⌊(96/100 : ℚ) * (10 : ℚ) ^ 4⌋ = 9600 := by norm_num
  simp only [fmtFixed, h]
  rfl

/-- C9 counterexample: the export path produced by
`model_util.save_final_model` (cited by the claim) varies with the achieved
accuracy — at best accuracies 0.95 and 0.96 the same model exports to two
different file names, so that variant's export path is not versionless. -/
theorem final_export_path_varies_counterexample :
    modelUtilFinalExportName "resnet18" (95/100)
      ≠ modelUtilFinalExportName "resnet18" (96/100) := by
  unfold modelUtilFinalExportName
  rw [fmtFixed_four_95, fmtFixed_four_96]
  decide

/-- Stripped keys are absent after deletion. -/
theorem lookup_stripFinalKeys_none {α : Type} (st : List (String × α))
    (k : String) (hk : k ∈ strippedKeys) :
    (stripFinalKeys st).lookup k = none := by
  induction st with
  | nil => rfl
  | cons p rest ih =>
    obtain ⟨a, b⟩ := p
    simp only [stripFinalKeys, List.filter_cons] at ih ⊢
    by_cases ha : a ∈ strippedKeys
    · have hd : decide (a ∈ strippedKeys) = true := decide_eq_true ha
      simpa [hd] using ih
    · have hd : decide (a ∈ strippedKeys) = false := decide_eq_false ha
      have hne : (k == a) = false := by
        rw [beq_eq_false_iff_ne]
        intro he
        exact ha (he ▸ hk)
      simpa [hd, List.lookup, hne] using ih

/-- Keys other than the three deleted ones keep their first binding. -/
theorem lookup_stripFinalKeys_other {α : Type} (st : List (String × α))
    (k : String) (hk : k ∉ strippedKeys) :
    (stripFinalKeys st).lookup k = st.lookup k := by
  induction st with
  | nil => rfl
  | cons p rest ih =>
    obtain ⟨a, b⟩ := p
    simp only [stripFinalKeys, List.filter_cons] at ih ⊢
    by_cases ha : a ∈ strippedKeys
    · have hd : decide (a ∈ strippedKeys) = true := decide_eq_true ha
      have hne : (k == a) = false := by
        rw [beq_eq_false_iff_ne]
        intro he
        exact hk (he ▸ ha)
      simpa [hd, List.lookup, hne] using ih
    · have hd : decide (a ∈ strippedKeys) = false := decide_eq_false ha
      simp only [hd, Bool.not_false, if_pos rfl, List.lookup]
      cases hka : (k == a) with
      | true => rfl
      | false => exact ih

/-- C9 amended: in the define/resnet pipeline, `_do_final_save` derives the
final export from the single last-written best checkpoint of the run
directory: the exported state is that checkpoint's state with the
`optimizer_state_dict`, `scheduler_state_dict` and `epoch` entries removed
and every other entry preserved, and it is written to the stable,
versionless path `{model.name}.pth`; the `model_util.save_final_model`
variant instead embeds the accuracy in its export file name (see the
counterexample). -/
theorem final_export_from_best_checkpoint {α : Type} (modelName ckptName : String)
    (st : List (String × α)) (hpth : isPth ckptName = true) :
    doFinalSave modelName [(ckptName, st)]
      = some (modelName ++ ".pth", stripFinalKeys st) ∧
    (∀ k ∈ strippedKeys, (stripFinalKeys st).lookup k = none) ∧
    (∀ k ∉ strippedKeys, (stripFinalKeys st).lookup k = st.lookup k) := by
  refine ⟨?_, ?_, ?_⟩
  · simp [doFinalSave, findFirstPth, List.find?, hpth, finalExportName]
  · intro k hk
    exact lookup_stripFinalKeys_none st k hk
  · intro k hk
    exact lookup_stripFinalKeys_other st k hk

/-- Witness: the final save applied to a concrete one-checkpoint directory;
nothing but the optimizer/scheduler/epoch entries is dropped. -/
theorem final_export_from_best_checkpoint_witness :
    doFinalSave "resnet_multi_head"
        [("resnet_multi_head_epoch7_acc93.50.pth",
          [("model_state_dict", 1), ("epoch", 7), ("optimizer_state_dict", 2),
           ("scheduler_state_dict", 3)])]
      = some ("resnet_multi_head" ++ ".pth",
          stripFinalKeys [("model_state_dict", 1), ("epoch", 7),
            ("optimizer_state_dict", 2), ("scheduler_state_dict", 3)]) ∧
    (stripFinalKeys [("model_state_dict", 1), ("epoch", 7),
        ("optimizer_state_dict", 2), ("scheduler_state_dict", 3)]).lookup "epoch"
      = none := by
  have h := final_export_from_best_checkpoint (α := ℕ) "resnet_multi_head"
    "resnet_multi_head_epoch7_acc93.50.pth"
    [("model_state_dict", 1), ("epoch", 7), ("optimizer_state_dict", 2),
     ("scheduler_state_dict", 3)] (by decide)
  exact ⟨h.1, h.2.1 "epoch" (by decide)⟩

/- ===================================================================
   Trainer class-level attributes across instances
   (src/model/char/executors/trainer.py `Trainer`, lines 22-41 class body,
    `Trainer.train`, lines 150-199; `__init__` lines 42-75 never touches
    the tracked attributes)
   =================================================================== -/

/-- The five history lists declared in the `Trainer` class body
(`train_losses = []`, ..., `learning_rates = []`).  They are class-level
list objects: `train()` only ever calls `.append(...)` on them (in-place
mutation through the class attribute) and no code rebinds them on an
instance, so one shared record models the class-level heap cells seen by
every instance. -/
structure SharedLists where
  train_losses : List ℚ
  valid_losses : List ℚ
  train_accs : List ℚ
  valid_accs : List ℚ
  learning_rates : List ℚ
deriving DecidableEq

/-- The class-level list attributes start empty. -/
def classInitLists : SharedLists := ⟨[], [], [], [], []⟩

/-- Class-attribute value `Trainer.best_valid_acc = 0.0`. -/
def classBestValidAcc : ℚ := 0

/-- Class-attribute value `Trainer.best_valid_loss = float('inf')`
(`none` models infinity). -/
def classBestValidLoss : Option ℚ := none

/-- Class-attribute value `Trainer.no_improve = 0`. -/
def classNoImprove : ℕ := 0

/-- The per-instance `__dict__` entries for the three scalar attributes:
Python attribute *assignment* (`self.best_valid_acc = ...`) writes the
instance dict (`some`), while a fresh instance has no entry (`none`). -/
structure InstDict where
  best_valid_acc : Option ℚ
  best_valid_loss : Option (Option ℚ)
  no_improve : Option ℕ
deriving DecidableEq

/-- A freshly constructed instance: `__init__` assigns none of the tracked
attributes, so its dict holds no entry for them. -/
def emptyInstDict : InstDict := ⟨none, none, none⟩

/-- Python attribute lookup `self.best_valid_acc`: instance dict first,
falling back to the class attribute. -/
def getBestValidAcc (d : InstDict) : ℚ := d.best_valid_acc.getD classBestValidAcc

/-- Attribute lookup `self.best_valid_loss`. -/
def getBestValidLoss (d : InstDict) : Option ℚ :=
  d.best_valid_loss.getD classBestValidLoss

/-- Attribute lookup `self.no_improve`. -/
def getNoImprove (d : InstDict) : ℕ := d.no_improve.getD classNoImprove

/-- One epoch's scalar results inside `Trainer.train`. -/
structure EpochData where
  train_loss : ℚ
  train_acc : ℚ
  valid_loss : ℚ
  valid_acc : ℚ
  lr : ℚ
deriving DecidableEq

/-- The per-epoch effect of `Trainer.train` on the tracked attributes:
append the learning rate and the four loss/accuracy scalars to the shared
class-level lists, then run the best-model check — whose assignments
(`self.best_valid_acc = ...`, `self.no_improve = 0` / `+= 1`) create
instance-dict entries. -/
def trainEpochEffect (s : SharedLists) (d : InstDict) (e : EpochData) :
    SharedLists × InstDict :=
  let s := { s with learning_rates := s.learning_rates ++ [e.lr] }
  let s := { s with train_losses := s.train_losses ++ [e.train_loss],
                    train_accs := s.train_accs ++ [e.train_acc],
                    valid_losses := s.valid_losses ++ [e.valid_loss],
                    valid_accs := s.valid_accs ++ [e.valid_acc] }
  let d :=
    if e.valid_acc > getBestValidAcc d then
      { best_valid_acc := some e.valid_acc,
        best_valid_loss := some (some e.valid_loss),
        no_improve := some 0 }
    else
      { d with no_improve := some (getNoImprove d + 1) }
  (s, d)

/-- The epoch loop of `Trainer.train` over the scripted epoch results,
with the early-stop break
`if config.EARLY_STOPPING and self.no_improve >= config.PATIENCE: break`. -/
def trainRun (patience : ℕ) (earlyStopping : Bool) :
    SharedLists → InstDict → List EpochData → SharedLists × InstDict
  | s, d, [] => (s, d)
  | s, d, e :: rest =>
    let r := trainEpochEffect s d e
    if earlyStopping && decide (getNoImprove r.2 ≥ patience) then r
    else trainRun patience earlyStopping r.1 r.2 rest

/-- What a second `Trainer` instance observes for `self.valid_accs`: its own
dict has no entry (no list attribute is ever assigned on an instance), so
lookup reaches the shared class-level list object. -/
def observedValidAccs (s : SharedLists) (_d : InstDict) : List ℚ := s.valid_accs

/-- C10 counterexample: run `train()` on a first `Trainer` instance for one
epoch with validation accuracy 0.5.  The first instance's own lookup then
yields the raised best 0.5, but a second instance constructed afterwards
observes `best_valid_acc = 0.0` — the class attribute was never mutated,
because `train()`'s assignment created an *instance* attribute — while the
claim predicts the second instance would observe the raised value 0.5. -/
theorem trainer_best_acc_not_shared_counterexample :
    getBestValidAcc (trainRun 5 true classInitLists emptyInstDict
        [⟨1, 1, 1, 1/2, 1⟩]).2 = 1/2 ∧
    getBestValidAcc emptyInstDict = 0 ∧
    ((0 : ℚ) ≠ 1/2) ∧
    observedValidAccs (trainRun 5 true classInitLists emptyInstDict
        [⟨1, 1, 1, 1/2, 1⟩]).1 emptyInstDict = [1/2] := by
  refine ⟨?_, rfl, by norm_num, ?_⟩
  · norm_num [trainRun, trainEpochEffect, getBestValidAcc, getNoImprove,
      classInitLists, emptyInstDict, classBestValidAcc, classNoImprove]
  · norm_num [trainRun, trainEpochEffect, observedValidAccs, getBestValidAcc,
      getNoImprove, classInitLists, emptyInstDict, classBestValidAcc,
      classNoImprove]

/-- The epoch loop without early stopping processes every epoch and appends
every validation accuracy to the shared class-level list. -/
theorem trainRun_valid_accs (patience : ℕ) (epochs : List EpochData) :
    ∀ (s : SharedLists) (d : InstDict),
      (trainRun patience false s d epochs).1.valid_accs
        = s.valid_accs ++ epochs.map (fun e => e.valid_acc) := by
  induction epochs with
  | nil =>
    intro s d
    simp [trainRun]
  | cons e rest ih =>
    intro s d
    have hstep : trainRun patience false s d (e :: rest)
        = trainRun patience false (trainEpochEffect s d e).1
            (trainEpochEffect s d e).2 rest := by
      simp [trainRun]
    rw [hstep, ih]
    simp [trainEpochEffect]

/-- C10 amended: the five history lists are class-level list objects mutated
in place, so after a first instance's `train()` run a second, fresh
instance observes the first run's appended history rather than empty lists;
but the scalar markers `best_valid_acc`, `best_valid_loss` and `no_improve`,
though declared on the class, are rebound by instance-attribute assignment
inside `train()`, so a second instance still observes the class-level
initial values `0.0`, `inf` and `0` — not the first run's raised best. -/
theorem trainer_class_state_across_instances (patience : ℕ)
    (epochs : List EpochData) :
    (trainRun patience false classInitLists emptyInstDict epochs).1.valid_accs
        = epochs.map (fun e => e.valid_acc) ∧
    observedValidAccs
        (trainRun patience false classInitLists emptyInstDict epochs).1
        emptyInstDict
      = epochs.map (fun e => e.valid_acc) ∧
    getBestValidAcc emptyInstDict = classBestValidAcc ∧
    getBestValidLoss emptyInstDict = classBestValidLoss ∧
    getNoImprove emptyInstDict = classNoImprove := by
  have h := trainRun_valid_accs patience epochs classInitLists emptyInstDict
  refine ⟨?_, ?_, rfl, rfl, rfl⟩
  · rw [h]
    rfl
  · rw [observedValidAccs, h]
    rfl

/-- Witness: the amended statement at a concrete two-epoch run. -/
theorem trainer_class_state_across_instances_witness :
    (trainRun 5 false classInitLists emptyInstDict
        [⟨1, 1, 1, 1/2, 1⟩, ⟨1, 1, 1, 3/4, 1⟩]).1.valid_accs = [1/2, 3/4] ∧
    getBestValidAcc emptyInstDict = classBestValidAcc := by
  have h := trainer_class_state_across_instances 5
    [⟨1, 1, 1, 1/2, 1⟩, ⟨1, 1, 1, 3/4, 1⟩]
  exact ⟨h.1, h.2.2.1⟩
